import Mathlib

/-!
Verification development for the leaveNest backend (TypeScript/Express/Mongoose).

We shallowly embed the leave-request lifecycle core:
  * `updateLeaveBalance` (src/routes/leaveRequestRoutes.ts, lines 40-77),
  * `notifyRequesterOfStatusChange` (lines 80-174),
  * the submission handler `router.post('/')` (lines 177-303),
  * the transition handler `router.put('/:id')` (lines 347-380),
  * the hourly reminder sweep (src/server.ts, lines 77-149).

The document store (MongoDB via mongoose) is modelled as in-memory lists of
documents; ObjectIds are `Nat`; JS numbers in the balance ledger are `ℚ`
(all arithmetic performed on them is exact: +, -, *0.5, max 0); JS string
operations are modelled on ASCII (`Char.toLower`).  Email sending has no
effect on the store and is modelled only as attempt events; `uuidv4()` is
modelled as a fresh identifier derived from the store since it is used only
as a unique id, never as a dedup key.  Thrown JS exceptions are modelled
with `Except`/fault flags, caught exactly where the source catches them.
-/

namespace LeaveNest

/-- ASCII lower-casing, modelling JS `String.prototype.toLowerCase` on the
ASCII strings used by the routes. -/
def lowerStr (s : String) : String :=
  String.mk (s.data.map Char.toLower)

/-- `leadsWith pat s`: `s` starts with `pat` (character lists). -/
def leadsWith : List Char → List Char → Bool
  | [], _ => true
  | _ :: _, [] => false
  | p :: ps, c :: cs => p == c && leadsWith ps cs

/-- `hasSub pat s`: `pat` occurs as a contiguous substring of `s`. -/
def hasSub (pat : List Char) : List Char → Bool
  | [] => pat.isEmpty
  | c :: cs => leadsWith pat (c :: cs) || hasSub pat cs

/-- Case-insensitive substring test: models an unanchored `/pat/i` regex
match on `s` (for literal patterns). -/
def containsCI (pat s : String) : Bool :=
  hasSub (lowerStr pat).data (lowerStr s).data

/-- Models `String.prototype.trim`: strip leading and trailing whitespace. -/
def trimStr (s : String) : String :=
  String.mk (((s.data.dropWhile Char.isWhitespace).reverse.dropWhile Char.isWhitespace).reverse)

/-- The submission handler's admin-department fallback regex
`/(hr|human resources)/i` (leaveRequestRoutes.ts line 227): an unanchored,
case-insensitive match, i.e. a substring test. -/
def submitHrMatch (dept : String) : Bool :=
  containsCI "hr" dept || containsCI "human resources" dept

/-- The reminder sweep's admin-department regex `/^(hr|human resources)$/i`
(server.ts line 95): anchored, so the whole department must equal one of the
alternatives up to case. -/
def sweepHrMatch (dept : String) : Bool :=
  lowerStr dept == "hr" || lowerStr dept == "human resources"

/-- `User.leaveBalance` (models/User.ts): four JS-number counters. -/
structure LeaveBalance where
  annual : ℚ
  medical : ℚ
  shortleave : ℚ
  leavesTaken : ℚ
deriving Repr, DecidableEq

/-- A `User` document, restricted to the fields the lifecycle core reads.
`createdAt` models the mongoose timestamp used for the `.sort({createdAt:1})`
tie-break. -/
structure UserDoc where
  id : Nat
  name : String
  department : String
  roles : List String
  createdAt : Nat
  leaveBalance : LeaveBalance
deriving Repr, DecidableEq

/-- A `LeaveRequest` document (models/LeaveRequest.ts), restricted to the
fields the lifecycle core reads.  `dates` keeps only the calendar dates'
identities (the code only takes `.length` and joins them into mail text). -/
structure LeaveRequestDoc where
  id : Nat
  user : Nat
  leaveType : String
  dates : List String
  reason : String
  status : String
  approver : Option Nat
deriving Repr, DecidableEq

/-- A `Notification` document (models/Notification.ts), restricted to the
fields the lifecycle core writes and queries. -/
structure NotificationDoc where
  notification_id : String
  recipient : Nat
  sender : Option Nat
  type : String
  message : String
  status : String
  relatedLeaveRequest : Option Nat
deriving Repr, DecidableEq

/-- The document store: the three collections the core touches, plus a
counter supplying fresh document ids (MongoDB generates fresh `_id`s). -/
structure DB where
  users : List UserDoc
  leaves : List LeaveRequestDoc
  notifs : List NotificationDoc
  nextId : Nat
deriving Repr, DecidableEq

/-- `User.findById` -/
def DB.findUser (db : DB) (uid : Nat) : Option UserDoc :=
  db.users.find? (fun u => u.id == uid)

/-- `LeaveRequest.findById` -/
def DB.findLeave (db : DB) (lid : Nat) : Option LeaveRequestDoc :=
  db.leaves.find? (fun l => l.id == lid)

/-- Persist an updated leave-request document (replace by id). -/
def DB.setLeave (db : DB) (lr : LeaveRequestDoc) : DB :=
  { db with leaves := db.leaves.map (fun l => if l.id == lr.id then lr else l) }

/-- Persist an updated user document (replace by id). -/
def DB.setUser (db : DB) (u : UserDoc) : DB :=
  { db with users := db.users.map (fun v => if v.id == u.id then u else v) }

/-- Number of stored notifications carrying a given `notification_id`. -/
def DB.countKey (db : DB) (key : String) : Nat :=
  (db.notifs.filter (fun n => n.notification_id == key)).length

/-- The pure arithmetic core of `updateLeaveBalance`
(leaveRequestRoutes.ts lines 44-69): branch on leave type and reason,
mutate the counters, then clamp `annual`, `medical`, `shortleave` at zero
(`Math.max(0, ·)`); `leavesTaken` is not clamped.  `numDates` is
`leaveRequest.dates.length`. -/
def computeNewBalance (b : LeaveBalance) (leaveType reason : String) (numDates : Nat) :
    LeaveBalance :=
  let n : ℚ := numDates
  let step :=
    if leaveType == "Full Day" then
      if reason == "Sick" then
        { b with medical := b.medical - n, leavesTaken := b.leavesTaken + n }
      else
        { b with annual := b.annual - n, leavesTaken := b.leavesTaken + n }
    else if leaveType == "Short Leave" then
      { b with shortleave := b.shortleave - n / 2, leavesTaken := b.leavesTaken + n / 2 }
    else
      b
  { annual := max 0 step.annual
    medical := max 0 step.medical
    shortleave := max 0 step.shortleave
    leavesTaken := step.leavesTaken }

/-- `updateLeaveBalance(userId, leaveRequest)` (lines 40-77): load the user
(`throw` when absent), recompute the balance, persist the user. -/
def updateLeaveBalance (db : DB) (userId : Nat) (lr : LeaveRequestDoc) : Except String DB :=
  match db.findUser userId with
  | none => .error "User not found"
  | some u =>
      let b := computeNewBalance u.leaveBalance lr.leaveType lr.reason lr.dates.length
      .ok (db.setUser { u with leaveBalance := b })

/-- Observable side-effect events of a handler run, in program order.
`ledgerApplied uid` marks a completed `updateLeaveBalance` persist against
user `uid`; `requesterNotifyAttempt rcpt` marks an invocation of
`notifyRequesterOfStatusChange` whose resolved recipient is `rcpt`;
`adminNotifyCreated` / `warnNoAdmin` mark the submission-notification
outcome; `emailAttempt dest` marks an email hand-off. -/
inductive Event where
  | ledgerApplied (uid : Nat)
  | requesterNotifyAttempt (rcpt : Nat)
  | adminNotifyCreated (admin : Nat)
  | warnNoAdmin
  | emailAttempt (dest : Nat)
deriving Repr, DecidableEq

/-- Injected failures for the fallible collaborators: `notifSaveFails`
makes the next `Notification.save()`/`Notification.create()` inside an
emission throw; `emailSendFails` makes the mail wrapper throw. -/
structure Faults where
  notifSaveFails : Bool
  emailSendFails : Bool
deriving Repr, DecidableEq

/-- No injected failures. -/
def Faults.none : Faults := ⟨false, false⟩

/-- An HTTP response, reduced to what the handlers produce: a status code
and, for error paths, the error message. -/
inductive HttpRes where
  | ok (code : Nat)
  | err (code : Nat) (msg : String)
deriving Repr, DecidableEq

/-- The pure notification-record builder inside
`notifyRequesterOfStatusChange` (leaveRequestRoutes.ts lines 83-118):
resolve the effective approver, lower-case the status, build the message
(appending " by NAME." when an approver user is resolved), and assemble the
document.  `uuidv4()` is modelled as a fresh id derived from the store. -/
def statusNotifFor (db : DB) (leave : LeaveRequestDoc) (approverId : Option Nat)
    (newStatus : String) : NotificationDoc :=
  let effectiveApproverId := match approverId with
    | some a => some a
    | none => leave.approver
  let statusLower := lowerStr newStatus
  let basicMessage :=
    if statusLower == "approved" then "Your leave request has been approved"
    else "Your leave request has been " ++ statusLower
  let approverUser := match effectiveApproverId with
    | some a => db.findUser a
    | none => none
  let message := match approverUser with
    | some au => basicMessage ++ " by " ++ au.name ++ "."
    | none => basicMessage
  let senderValue := match approverUser with
    | some au => some au.id
    | none => effectiveApproverId
  { notification_id := "uuid-" ++ toString db.notifs.length
    recipient := leave.user
    sender := senderValue
    type := if statusLower == "approved" then "leave_approved" else "leave_rejected"
    message := message
    status := "unread"
    relatedLeaveRequest := some leave.id }

/-- `notifyRequesterOfStatusChange(leave, approverId, newStatus)`
(lines 80-174).  The whole body is wrapped in `try/catch` with a log, so
the function never throws: on an injected save failure nothing is
persisted; email failures after a successful save are caught inside and
leave the saved notification in place.  Email sending itself never touches
the store, so it contributes only an `emailAttempt` event. -/
def notifyRequesterOfStatusChange (f : Faults) (db : DB) (leave : LeaveRequestDoc)
    (approverId : Option Nat) (newStatus : String) : DB × List Event :=
  let notif := statusNotifFor db leave approverId newStatus
  if f.notifSaveFails then
    (db, [Event.requesterNotifyAttempt leave.user])
  else
    ({ db with notifs := db.notifs ++ [notif] },
     [Event.requesterNotifyAttempt leave.user, Event.emailAttempt leave.user])

/-- The shape of a `PUT /:id` transition request: the path id, the body's
`status` and `approverId` fields, and any authenticated admin id on
`req.user`. -/
structure TransitionReq where
  id : Nat
  bodyStatus : Option String
  bodyApproverId : Option Nat
  authUserId : Option Nat
deriving Repr, DecidableEq

/-- JS truthiness of the body's `status` field (`if (req.body.status)`):
present and non-empty. -/
def statusTruthy : Option String → Bool
  | some s => s != ""
  | none => false

/-- The transition handler `router.put('/:id')` (lines 347-380):
`findByIdAndUpdate(id, body, {new:true})` persists the body's `status`
field (the only body field in the schema) and 404s when the id is unknown;
when the body's status is exactly `"Approved"`, `updateLeaveBalance` runs
against the request's owner (a thrown "User not found" reaches the outer
catch as a 500 after the status update was already persisted); then the
approver is saved when one was supplied; then, whenever the body carries a
truthy status, `notifyRequesterOfStatusChange` is attempted.  Returns the
final store, the HTTP response, and the event trace in program order. -/
def transitionPut (f : Faults) (db : DB) (req : TransitionReq) :
    DB × HttpRes × List Event :=
  match db.findLeave req.id with
  | none => (db, HttpRes.err 404 "Leave request not found", [])
  | some leave0 =>
      let updated := match req.bodyStatus with
        | some s => { leave0 with status := s }
        | none => leave0
      let db1 := db.setLeave updated
      let afterBalance : Except String (DB × List Event) :=
        if req.bodyStatus == some "Approved" then
          match updateLeaveBalance db1 updated.user updated with
          | .error e => .error e
          | .ok db2 => .ok (db2, [Event.ledgerApplied updated.user])
        else
          .ok (db1, [])
      match afterBalance with
      | .error e => (db1, HttpRes.err 500 e, [])
      | .ok (db2, ev1) =>
          let approverId := match req.authUserId with
            | some a => some a
            | none => req.bodyApproverId
          let (updated2, db3) := match approverId with
            | some a =>
                let u2 := { updated with approver := some a }
                (u2, db2.setLeave u2)
            | none => (updated, db2)
          let finalApproverId := match approverId with
            | some a => some a
            | none => updated2.approver
          if statusTruthy req.bodyStatus then
            let s := req.bodyStatus.getD ""
            let (db4, ev2) := notifyRequesterOfStatusChange f db3 updated2 finalApproverId s
            (db4, HttpRes.ok 200, ev1 ++ ev2)
          else
            (db3, HttpRes.ok 200, ev1)

/-- `findOne(filter).sort({createdAt: 1})`: the document with the smallest
`createdAt` among those matching, ties resolved deterministically to the
earliest-stored document. -/
def pickEarliest : List UserDoc → Option UserDoc
  | [] => none
  | u :: us =>
      match pickEarliest us with
      | none => some u
      | some v => if v.createdAt < u.createdAt then some v else some u

/-- Admin selection of the submission handler (lines 226-233): one admin in
the submitter's department (earliest-created), else one admin whose
department matches the unanchored `/(hr|human resources)/i` regex.  When the
submitter failed to resolve, `department: undefined` is stripped from the
mongoose filter, leaving only the role constraint. -/
def selectTargetAdmin (db : DB) (userDepartment : Option String) : Option UserDoc :=
  let inDept := pickEarliest (db.users.filter (fun a =>
    a.roles.contains "admin" &&
      (match userDepartment with
       | some d => a.department == d
       | none => true)))
  match inDept with
  | some a => some a
  | none =>
      pickEarliest (db.users.filter (fun a =>
        a.roles.contains "admin" && submitHrMatch a.department))

/-- The submission notification's dedup key
``leave_${request._id}_${targetAdmin._id}`` (line 237). -/
def submitNotifId (reqId adminId : Nat) : String :=
  "leave_" ++ toString reqId ++ "_" ++ toString adminId

/-- JS `x?.name || "an employee"` for the submitter. -/
def submitterName : Option UserDoc → String
  | some u => if u.name != "" then u.name else "an employee"
  | none => "an employee"

/-- The admin-notification emission block of the submission handler
(lines 236-292): derive the dedup key, skip when a notification with the
key/recipient/request triple already exists, otherwise create the
notification and hand the email off in the background.  The whole block is
inside `try/catch`, so an injected create failure is logged and swallowed. -/
def emitSubmissionNotif (f : Faults) (db : DB) (reqId : Nat) (userDoc : Option UserDoc)
    (admin : UserDoc) : DB × List Event :=
  let nid := submitNotifId reqId admin.id
  let already := db.notifs.any (fun n =>
    n.notification_id == nid && n.recipient == admin.id &&
      n.relatedLeaveRequest == some reqId)
  if already then (db, [])
  else if f.notifSaveFails then (db, [])
  else
    let notif : NotificationDoc :=
      { notification_id := nid
        recipient := admin.id
        sender := userDoc.map (fun u => u.id)
        type := "leave_submitted"
        message := "New leave request from " ++ submitterName userDoc ++ "."
        status := "unread"
        relatedLeaveRequest := some reqId }
    ({ db with notifs := db.notifs ++ [notif] },
     [Event.adminNotifyCreated admin.id, Event.emailAttempt admin.id])

/-- The shape of a `POST /` submission body after multipart parsing:
`user` is absent or an id, `dates` is already normalised to a list
(the handler wraps a single value). -/
structure SubmitReq where
  user : Option Nat
  leaveType : String
  dates : List String
  reason : String
  otherReason : Option String
  halfDayType : Option String
deriving Repr, DecidableEq

/-- The submission handler `router.post('/')` (lines 177-303): validate the
required fields (400 when missing), resolve the final reason, persist a new
`Pending` request, populate the submitter, pick the target admin, emit the
deduplicated admin notification (or log a warning when no admin exists),
and answer 201. -/
def submitPost (f : Faults) (db : DB) (req : SubmitReq) : DB × HttpRes × List Event :=
  match req.user with
  | none => (db, HttpRes.err 400 "Required fields missing", [])
  | some uid =>
      if req.leaveType == "" || req.dates.isEmpty then
        (db, HttpRes.err 400 "Required fields missing", [])
      else
        let otherTruthy := match req.otherReason with
          | some o => o != ""
          | none => false
        let finalReason :=
          if req.reason == "Other" && otherTruthy then req.otherReason.getD ""
          else req.reason
        let request : LeaveRequestDoc :=
          { id := db.nextId
            user := uid
            leaveType := req.leaveType
            dates := req.dates
            reason := finalReason
            status := "Pending"
            approver := none }
        let db1 := { db with leaves := db.leaves ++ [request], nextId := db.nextId + 1 }
        let userDoc := db1.findUser uid
        let userDepartment := userDoc.map (fun u => u.department)
        match selectTargetAdmin db1 userDepartment with
        | some admin =>
            let (db2, evs) := emitSubmissionNotif f db1 request.id userDoc admin
            (db2, HttpRes.ok 201, evs)
        | none => (db1, HttpRes.ok 201, [Event.warnNoAdmin])

/-- The reminder dedup key
``reminder_${leave._id}_${admin._id}_${hourKey}`` (server.ts line 103). -/
def reminderKey (leaveId adminId : Nat) (hourKey : String) : String :=
  "reminder_" ++ toString leaveId ++ "_" ++ toString adminId ++ "_" ++ hourKey

/-- The sweep's admin query (server.ts lines 95-99): admins whose department
equals the trimmed submitter department or matches the anchored
`/^(hr|human resources)$/i` regex. -/
def reminderAdmins (db : DB) (u : UserDoc) : List UserDoc :=
  let userDept := trimStr u.department
  db.users.filter (fun a =>
    a.roles.contains "admin" && (a.department == userDept || sweepHrMatch a.department))

/-- The reminder notification created by the sweep (server.ts lines 107-115). -/
def mkReminderNotif (leave : LeaveRequestDoc) (u : UserDoc) (admin : UserDoc)
    (hourKey : String) : NotificationDoc :=
  { notification_id := reminderKey leave.id admin.id hourKey
    recipient := admin.id
    sender := none
    type := "reminder"
    message := "Reminder: Pending leave request from " ++
      (if u.name != "" then u.name else "an employee") ++ "."
    status := "unread"
    relatedLeaveRequest := some leave.id }

/-- Per-admin body of the sweep (server.ts lines 101-144): skip when a
notification with the derived key already exists, otherwise create it (the
email attempt afterwards never touches the store and its failure is caught
in place). -/
def sweepAdminStep (leave : LeaveRequestDoc) (u : UserDoc) (hourKey : String)
    (db : DB) (admin : UserDoc) : DB :=
  if db.notifs.any (fun n => n.notification_id == reminderKey leave.id admin.id hourKey) then db
  else { db with notifs := db.notifs ++ [mkReminderNotif leave u admin hourKey] }

/-- Per-leave body of the sweep (server.ts lines 81-145): skip when the
owner does not populate or has a falsy department, otherwise run the
per-admin body over the matching admins. -/
def sweepLeaveStep (hourKey : String) (db : DB) (leave : LeaveRequestDoc) : DB :=
  match db.findUser leave.user with
  | none => db
  | some u =>
      if u.department == "" then db
      else (reminderAdmins db u).foldl (sweepAdminStep leave u hourKey) db

/-- One tick of the hourly cron job (server.ts lines 77-149): fetch the
leaves whose status matches the unanchored `/pending/i` regex and run the
per-leave body on each.  `hourKey` is the tick's `YYYYMMDDHH` bucket. -/
def sweepTick (hourKey : String) (db : DB) : DB :=
  (db.leaves.filter (fun l => containsCI "pending" l.status)).foldl
    (sweepLeaveStep hourKey) db

/-! ### Concrete documents used by witnesses and counterexamples -/

/-- A sample employee with the default balance {annual 20, medical 4,
shortleave 24, leavesTaken 0}. -/
def exUser1 : UserDoc :=
  { id := 1, name := "Bob", department := "Engineering", roles := ["employee"]
    createdAt := 0, leaveBalance := { annual := 20, medical := 4, shortleave := 24, leavesTaken := 0 } }

/-- A full-day "Sick" leave request with 5 dates owned by `exUser1`. -/
def exLeaveSick5 : LeaveRequestDoc :=
  { id := 10, user := 1, leaveType := "Full Day", dates := ["d1", "d2", "d3", "d4", "d5"]
    reason := "Sick", status := "Pending", approver := none }

/-- A store holding just `exUser1` and `exLeaveSick5`. -/
def exDB1 : DB := { users := [exUser1], leaves := [exLeaveSick5], notifs := [], nextId := 20 }

/-- The balance currently stored for a user. -/
def balanceOf (db : DB) (uid : Nat) : Option LeaveBalance :=
  (db.findUser uid).map (fun u => u.leaveBalance)

/-- The nominal requested amount of a leave request, as the specification
words it: N for full-day, 0.5×N for short-leave, 0 otherwise. -/
def nominalAmount (lr : LeaveRequestDoc) : ℚ :=
  if lr.leaveType = "Full Day" then (lr.dates.length : ℚ)
  else if lr.leaveType = "Short Leave" then (lr.dates.length : ℚ) / 2
  else 0

/-! ### Closed form of the ledger arithmetic (shared helper) -/

/-- The clamped closed form that `updateLeaveBalance` stores, written out
rule by rule. -/
def ledgerRuleResult (b : LeaveBalance) (leaveType reason : String) (numDates : Nat) :
    LeaveBalance :=
  let n : ℚ := (numDates : ℚ)
  if leaveType = "Full Day" then
    if reason = "Sick" then
      { annual := max 0 b.annual, medical := max 0 (b.medical - n)
        shortleave := max 0 b.shortleave, leavesTaken := b.leavesTaken + n }
    else
      { annual := max 0 (b.annual - n), medical := max 0 b.medical
        shortleave := max 0 b.shortleave, leavesTaken := b.leavesTaken + n }
  else if leaveType = "Short Leave" then
    { annual := max 0 b.annual, medical := max 0 b.medical
      shortleave := max 0 (b.shortleave - n / 2), leavesTaken := b.leavesTaken + n / 2 }
  else
    { annual := max 0 b.annual, medical := max 0 b.medical
      shortleave := max 0 b.shortleave, leavesTaken := b.leavesTaken }

theorem computeNewBalance_eq (b : LeaveBalance) (leaveType reason : String) (numDates : Nat) :
    computeNewBalance b leaveType reason numDates = ledgerRuleResult b leaveType reason numDates := by
  unfold computeNewBalance ledgerRuleResult
  by_cases hft : leaveType = "Full Day"
  · by_cases hs : reason = "Sick" <;> simp [hft, hs]
  · by_cases hsl : leaveType = "Short Leave" <;> simp [hft, hsl]

theorem updateLeaveBalance_closed (db : DB) (uid : Nat) (lr : LeaveRequestDoc) (u : UserDoc)
    (hu : db.findUser uid = some u) :
    updateLeaveBalance db uid lr =
      Except.ok (db.setUser { u with leaveBalance :=
        (ledgerRuleResult u.leaveBalance lr.leaveType lr.reason lr.dates.length) }) := by
  unfold updateLeaveBalance
  rw [hu]
  simp only [computeNewBalance_eq]

/-- The stored balance of `exUser1` after a full-day "Sick" request with 5
dates: medical is clamped from 4 − 5 to 0, leavesTaken rises by the full 5. -/
theorem sick5_concrete :
    updateLeaveBalance exDB1 1 exLeaveSick5 =
      Except.ok (exDB1.setUser { exUser1 with leaveBalance :=
        { annual := 20, medical := 0, shortleave := 24, leavesTaken := 5 } }) := by
  simp [updateLeaveBalance, computeNewBalance, exDB1, exUser1, exLeaveSick5, DB.findUser]
  norm_num [max_def, DB.setUser]

/-! ### C1 -/

/-- Claim C1, as stated, is false on the code: it derives the new balance
from the mutation rules alone ("medical decreases by N"), but
`updateLeaveBalance` additionally clamps `annual`, `medical`, `shortleave`
at zero.  Starting from medical = 4, a full-day "Sick" request with 5 dates
stores medical = 0, while the stated rule demands 4 − 5 = −1 ≠ 0. -/
theorem C1_counterexample :
    (updateLeaveBalance exDB1 1 exLeaveSick5).toOption.map (fun db => balanceOf db 1) =
      some (some { annual := 20, medical := 0, shortleave := 24, leavesTaken := 5 }) ∧
    exUser1.leaveBalance.medical - (exLeaveSick5.dates.length : ℚ) ≠ 0 := by
  constructor
  · rw [sick5_concrete]
    rfl
  · show (4 : ℚ) - 5 ≠ 0
    norm_num

/-- Claim C1 (amended: the rules are followed by the zero-clamp on
`annual`, `medical`, `shortleave`): for every stored balance and request,
`updateLeaveBalance` mutates exactly the counters named by the applicable
rule — full-day "Sick": medical −N, leavesTaken +N; full-day otherwise:
annual −N, leavesTaken +N; short-leave: shortleave −0.5N, leavesTaken
+0.5N; any other type (half-day): nothing — and then clamps `annual`,
`medical`, `shortleave` at zero, leaving `leavesTaken` unclamped and all
other users untouched. -/
theorem C1_ledger_rules (db : DB) (uid : Nat) (lr : LeaveRequestDoc) (u : UserDoc)
    (hu : db.findUser uid = some u) :
    updateLeaveBalance db uid lr =
      Except.ok (db.setUser { u with leaveBalance :=
        (let b := u.leaveBalance
         let n : ℚ := (lr.dates.length : ℚ)
         if lr.leaveType = "Full Day" then
           if lr.reason = "Sick" then
             { annual := max 0 b.annual, medical := max 0 (b.medical - n)
               shortleave := max 0 b.shortleave, leavesTaken := b.leavesTaken + n }
           else
             { annual := max 0 (b.annual - n), medical := max 0 b.medical
               shortleave := max 0 b.shortleave, leavesTaken := b.leavesTaken + n }
         else if lr.leaveType = "Short Leave" then
           { annual := max 0 b.annual, medical := max 0 b.medical
             shortleave := max 0 (b.shortleave - n / 2), leavesTaken := b.leavesTaken + n / 2 }
         else
           { annual := max 0 b.annual, medical := max 0 b.medical
             shortleave := max 0 b.shortleave, leavesTaken := b.leavesTaken }) }) := by
  rw [updateLeaveBalance_closed db uid lr u hu]
  rfl

/-- Witness for `C1_ledger_rules` at the concrete store `exDB1`. -/
theorem C1_ledger_rules_witness :
    updateLeaveBalance exDB1 1 exLeaveSick5 =
      Except.ok (exDB1.setUser { exUser1 with leaveBalance :=
        (let b := exUser1.leaveBalance
         let n : ℚ := (exLeaveSick5.dates.length : ℚ)
         if exLeaveSick5.leaveType = "Full Day" then
           if exLeaveSick5.reason = "Sick" then
             { annual := max 0 b.annual, medical := max 0 (b.medical - n)
               shortleave := max 0 b.shortleave, leavesTaken := b.leavesTaken + n }
           else
             { annual := max 0 (b.annual - n), medical := max 0 b.medical
               shortleave := max 0 b.shortleave, leavesTaken := b.leavesTaken + n }
         else if exLeaveSick5.leaveType = "Short Leave" then
           { annual := max 0 b.annual, medical := max 0 b.medical
             shortleave := max 0 (b.shortleave - n / 2), leavesTaken := b.leavesTaken + n / 2 }
         else
           { annual := max 0 b.annual, medical := max 0 b.medical
             shortleave := max 0 b.shortleave, leavesTaken := b.leavesTaken }) }) :=
  C1_ledger_rules exDB1 1 exLeaveSick5 exUser1 rfl

/-! ### C2 -/

/-- Claim C2: starting from non-negative counters, the balance stored by
`updateLeaveBalance` has `annual`, `medical`, `shortleave` clamped at zero
(never negative), while `leavesTaken` is never clamped and rises by the
nominal requested amount even when the deduction was truncated; in
particular {annual 20, medical 4, shortleave 24, leavesTaken 0} with a
full-day "Sick" leave over 5 dates yields exactly
{annual 20, medical 0, shortleave 24, leavesTaken 5}. -/
theorem C2_clamp_asymmetry (db : DB) (uid : Nat) (lr : LeaveRequestDoc) (u : UserDoc)
    (hu : db.findUser uid = some u)
    (hA : 0 ≤ u.leaveBalance.annual) (hM : 0 ≤ u.leaveBalance.medical)
    (hS : 0 ≤ u.leaveBalance.shortleave) (hT : 0 ≤ u.leaveBalance.leavesTaken) :
    ∃ b2 : LeaveBalance,
      updateLeaveBalance db uid lr = Except.ok (db.setUser { u with leaveBalance := b2 }) ∧
      0 ≤ b2.annual ∧ 0 ≤ b2.medical ∧ 0 ≤ b2.shortleave ∧
      b2.leavesTaken = u.leaveBalance.leavesTaken + nominalAmount lr ∧
      updateLeaveBalance exDB1 1 exLeaveSick5 =
        Except.ok (exDB1.setUser { exUser1 with leaveBalance :=
          { annual := 20, medical := 0, shortleave := 24, leavesTaken := 5 } }) := by
  refine ⟨ledgerRuleResult u.leaveBalance lr.leaveType lr.reason lr.dates.length,
    updateLeaveBalance_closed db uid lr u hu, ?_, ?_, ?_, ?_, sick5_concrete⟩
  · unfold ledgerRuleResult
    split_ifs <;> simp [le_max_left]
  · unfold ledgerRuleResult
    split_ifs <;> simp [le_max_left]
  · unfold ledgerRuleResult
    split_ifs <;> simp [le_max_left]
  · unfold ledgerRuleResult nominalAmount
    split_ifs <;> simp

/-- Witness for `C2_clamp_asymmetry` at the concrete store `exDB1`. -/
theorem C2_clamp_asymmetry_witness :
    ∃ b2 : LeaveBalance,
      updateLeaveBalance exDB1 1 exLeaveSick5 =
        Except.ok (exDB1.setUser { exUser1 with leaveBalance := b2 }) ∧
      0 ≤ b2.annual ∧ 0 ≤ b2.medical ∧ 0 ≤ b2.shortleave ∧
      b2.leavesTaken = exUser1.leaveBalance.leavesTaken + nominalAmount exLeaveSick5 ∧
      updateLeaveBalance exDB1 1 exLeaveSick5 =
        Except.ok (exDB1.setUser { exUser1 with leaveBalance :=
          { annual := 20, medical := 0, shortleave := 24, leavesTaken := 5 } }) :=
  C2_clamp_asymmetry exDB1 1 exLeaveSick5 exUser1 rfl
    (by norm_num [exUser1]) (by norm_num [exUser1]) (by norm_num [exUser1]) (by norm_num [exUser1])

/-! ### Transition-handler machinery -/

/-- An admin in the HR department, later-created than `exUser1`. -/
def exApprover : UserDoc :=
  { id := 2, name := "Alice", department := "HR", roles := ["admin"], createdAt := 1
    leaveBalance := { annual := 20, medical := 4, shortleave := 24, leavesTaken := 0 } }

/-- A store with the employee, the HR admin, and the pending request. -/
def exDB2 : DB := { users := [exUser1, exApprover], leaves := [exLeaveSick5], notifs := [], nextId := 20 }

/-- A store whose only leave request has a dangling owner reference. -/
def exDB3 : DB := { users := [], leaves := [exLeaveSick5], notifs := [], nextId := 20 }

/-- An approval call for request 10 naming admin 2 in the body. -/
def reqApprove : TransitionReq :=
  { id := 10, bodyStatus := some "Approved", bodyApproverId := some 2, authUserId := none }

/-- A rejection call for request 10 naming admin 2 in the body. -/
def reqReject : TransitionReq :=
  { id := 10, bodyStatus := some "Rejected", bodyApproverId := some 2, authUserId := none }

/-- The Ledger Arithmetic applications recorded in a trace. -/
def ledgerEvents (evs : List Event) : List Event :=
  evs.filter (fun e => match e with | Event.ledgerApplied _ => true | _ => false)

/-- The requester-notification attempts towards `rcpt` recorded in a trace. -/
def notifyEventsTo (evs : List Event) (rcpt : Nat) : List Event :=
  evs.filter (fun e => e == Event.requesterNotifyAttempt rcpt)

theorem findUser_setLeave (db : DB) (lr : LeaveRequestDoc) (uid : Nat) :
    (db.setLeave lr).findUser uid = db.findUser uid := rfl

theorem findLeave_setUser (db : DB) (u : UserDoc) (lid : Nat) :
    (db.setUser u).findLeave lid = db.findLeave lid := rfl

/-! ### C3 -/

/-- Claim C3: a Transition on an existing request with status "Approved"
(whose owner resolves) records exactly one Ledger Arithmetic application
against the request's owner, first in the trace, followed by exactly one
notification attempt to the requester and no further ledger application;
with status "Rejected" the trace holds zero ledger applications and exactly
one notification attempt to the requester. -/
theorem C3_transition_side_effects (f : Faults) (db : DB) (req : TransitionReq)
    (leave : LeaveRequestDoc) (u : UserDoc)
    (hl : db.findLeave req.id = some leave) :
    (req.bodyStatus = some "Approved" → db.findUser leave.user = some u →
      ∃ rest, (transitionPut f db req).2.2 = Event.ledgerApplied leave.user :: rest ∧
        ledgerEvents rest = [] ∧
        notifyEventsTo rest leave.user = [Event.requesterNotifyAttempt leave.user]) ∧
    (req.bodyStatus = some "Rejected" →
      ledgerEvents (transitionPut f db req).2.2 = [] ∧
      notifyEventsTo (transitionPut f db req).2.2 leave.user =
        [Event.requesterNotifyAttempt leave.user]) := by
  constructor
  · intro hs hu
    have hc := updateLeaveBalance_closed (db.setLeave { leave with status := "Approved" })
      leave.user { leave with status := "Approved" } u (by rw [findUser_setLeave]; exact hu)
    simp only [transitionPut, hl, hs, hc]
    cases hA : req.authUserId <;> cases hB : req.bodyApproverId <;>
      by_cases hf : f.notifSaveFails <;>
        simp [notifyRequesterOfStatusChange, statusTruthy, hf, ledgerEvents, notifyEventsTo]
  · intro hs
    simp only [transitionPut, hl, hs]
    cases hA : req.authUserId <;> cases hB : req.bodyApproverId <;>
      by_cases hf : f.notifSaveFails <;>
        simp [notifyRequesterOfStatusChange, statusTruthy, hf, ledgerEvents, notifyEventsTo]

/-- Witness for `C3_transition_side_effects`: both branches realised on the
concrete store `exDB2`. -/
theorem C3_transition_side_effects_witness :
    (∃ rest, (transitionPut Faults.none exDB2 reqApprove).2.2 =
        Event.ledgerApplied exLeaveSick5.user :: rest ∧
      ledgerEvents rest = [] ∧
      notifyEventsTo rest exLeaveSick5.user =
        [Event.requesterNotifyAttempt exLeaveSick5.user]) ∧
    (ledgerEvents (transitionPut Faults.none exDB2 reqReject).2.2 = [] ∧
      notifyEventsTo (transitionPut Faults.none exDB2 reqReject).2.2 exLeaveSick5.user =
        [Event.requesterNotifyAttempt exLeaveSick5.user]) :=
  ⟨(C3_transition_side_effects Faults.none exDB2 reqApprove exLeaveSick5 exUser1 rfl).1 rfl rfl,
   (C3_transition_side_effects Faults.none exDB2 reqReject exLeaveSick5 exUser1 rfl).2 rfl⟩

/-! ### C4 -/

/-- Claim C4, as stated, is false on the code: when the request id resolves
but the Approved request's owner id does not, `findByIdAndUpdate` has
already persisted the status change before `updateLeaveBalance` throws, so
a mutation IS performed, and the reported error is a generic 500, not the
handler's 404 NotFound response. -/
theorem C4_counterexample :
    (transitionPut Faults.none exDB3 reqApprove).2.1 = HttpRes.err 500 "User not found" ∧
    (transitionPut Faults.none exDB3 reqApprove).2.1 ≠
      HttpRes.err 404 "Leave request not found" ∧
    (transitionPut Faults.none exDB3 reqApprove).1.findLeave 10 =
      some { exLeaveSick5 with status := "Approved" } ∧
    exLeaveSick5.status = "Pending" := by
  refine ⟨rfl, by decide, rfl, rfl⟩

/-- Claim C4 (amended): when the request id does not resolve, the Transition
reports the 404 NotFound error and performs no mutation at all; when the
request resolves but its owner id does not during an Approved transition,
the operation reports a 500 error, the status change has already been
persisted, and no balance, notification, or other mutation occurs. -/
theorem C4_not_found (f : Faults) (db : DB) (req : TransitionReq) :
    (db.findLeave req.id = none →
      transitionPut f db req = (db, HttpRes.err 404 "Leave request not found", [])) ∧
    (∀ leave, db.findLeave req.id = some leave →
      req.bodyStatus = some "Approved" →
      db.findUser leave.user = none →
      transitionPut f db req =
        (db.setLeave { leave with status := "Approved" },
         HttpRes.err 500 "User not found", [])) := by
  constructor
  · intro hnone
    simp [transitionPut, hnone]
  · intro leave hl hs hu
    have hu' : (db.setLeave { leave with status := "Approved" }).findUser leave.user = none := by
      rw [findUser_setLeave]; exact hu
    simp only [transitionPut, hl, hs, updateLeaveBalance, hu']
    rfl

/-- Witness for `C4_not_found`: an unknown request id on `exDB2`, and the
dangling-owner store `exDB3`. -/
theorem C4_not_found_witness :
    (transitionPut Faults.none exDB2
        { id := 99, bodyStatus := some "Approved", bodyApproverId := none, authUserId := none } =
      (exDB2, HttpRes.err 404 "Leave request not found", [])) ∧
    (transitionPut Faults.none exDB3 reqApprove =
      (exDB3.setLeave { exLeaveSick5 with status := "Approved" },
       HttpRes.err 500 "User not found", [])) :=
  ⟨(C4_not_found Faults.none exDB2
      { id := 99, bodyStatus := some "Approved", bodyApproverId := none, authUserId := none }).1 rfl,
   (C4_not_found Faults.none exDB3 reqApprove).2 exLeaveSick5 rfl rfl rfl⟩

/-! ### Store lemmas shared by the transition claims -/

theorem findLeave_id (db : DB) (lid : Nat) (l : LeaveRequestDoc)
    (h : db.findLeave lid = some l) : l.id = lid := by
  unfold DB.findLeave at h
  have := List.find?_some h
  simpa using this

theorem findUser_setUser (db : DB) (u' : UserDoc) (uid : Nat) :
    (db.setUser u').findUser uid =
      (db.findUser uid).map (fun v => if v.id == u'.id then u' else v) := by
  unfold DB.setUser DB.findUser
  induction db.users with
  | nil => rfl
  | cons v vs ih =>
      by_cases h1 : v.id = u'.id <;> by_cases h2 : v.id = uid <;>
        simp_all [List.find?_cons, h1, h2]

theorem findLeave_setLeave (db : DB) (lr : LeaveRequestDoc) (lid : Nat) :
    (db.setLeave lr).findLeave lid =
      (db.findLeave lid).map (fun v => if v.id == lr.id then lr else v) := by
  unfold DB.setLeave DB.findLeave
  induction db.leaves with
  | nil => rfl
  | cons v vs ih =>
      by_cases h1 : v.id = lr.id <;> by_cases h2 : v.id = lid <;>
        simp_all [List.find?_cons, h1, h2]

theorem notify_findUser (f : Faults) (db : DB) (leave : LeaveRequestDoc)
    (a : Option Nat) (s : String) (uid : Nat) :
    (notifyRequesterOfStatusChange f db leave a s).1.findUser uid = db.findUser uid := by
  unfold notifyRequesterOfStatusChange
  by_cases hf : f.notifSaveFails <;> simp [hf, DB.findUser]

theorem notify_findLeave (f : Faults) (db : DB) (leave : LeaveRequestDoc)
    (a : Option Nat) (s : String) (lid : Nat) :
    (notifyRequesterOfStatusChange f db leave a s).1.findLeave lid = db.findLeave lid := by
  unfold notifyRequesterOfStatusChange
  by_cases hf : f.notifSaveFails <;> simp [hf, DB.findLeave]

/-- The full closed form of an Approved transition whose request and owner
both resolve. -/
theorem transitionPut_approved_closed (f : Faults) (db : DB) (req : TransitionReq)
    (leave : LeaveRequestDoc) (u : UserDoc)
    (hl : db.findLeave req.id = some leave)
    (hs : req.bodyStatus = some "Approved")
    (hu : db.findUser leave.user = some u) :
    transitionPut f db req =
      (let updated : LeaveRequestDoc := { leave with status := "Approved" }
       let u1 : UserDoc := { u with leaveBalance :=
         (ledgerRuleResult u.leaveBalance leave.leaveType leave.reason leave.dates.length) }
       let db2 := ((db.setLeave updated).setUser u1)
       let approverId := match req.authUserId with
         | some a => some a
         | none => req.bodyApproverId
       let updated2 := match approverId with
         | some a => { updated with approver := some a }
         | none => updated
       let db3 := match approverId with
         | some a => db2.setLeave { updated with approver := some a }
         | none => db2
       let finalApproverId := match approverId with
         | some a => some a
         | none => updated.approver
       let pr := notifyRequesterOfStatusChange f db3 updated2 finalApproverId "Approved"
       (pr.1, HttpRes.ok 200, Event.ledgerApplied leave.user :: pr.2)) := by
  have hc := updateLeaveBalance_closed (db.setLeave { leave with status := "Approved" })
    leave.user { leave with status := "Approved" } u (by rw [findUser_setLeave]; exact hu)
  simp only [transitionPut, hl, hs, hc]
  cases hA : req.authUserId <;> cases hB : req.bodyApproverId <;>
    simp [statusTruthy]

/-- Observable consequences of one Approved transition: the trace starts
with the ledger application against the owner, the stored request carries
the same type/reason/dates with status "Approved", and the owner's balance
was rewritten through the clamped rules. -/
theorem transitionPut_approved_parts (f : Faults) (db : DB) (req : TransitionReq)
    (leave : LeaveRequestDoc) (u : UserDoc)
    (hl : db.findLeave req.id = some leave)
    (hs : req.bodyStatus = some "Approved")
    (hu : db.findUser leave.user = some u) :
    ∃ lr2 : LeaveRequestDoc,
      (transitionPut f db req).2.2.head? = some (Event.ledgerApplied leave.user) ∧
      (transitionPut f db req).1.findLeave req.id = some lr2 ∧
      lr2.user = leave.user ∧ lr2.leaveType = leave.leaveType ∧ lr2.reason = leave.reason ∧
      lr2.dates = leave.dates ∧ lr2.status = "Approved" ∧
      (transitionPut f db req).1.findUser leave.user =
        some { u with leaveBalance :=
          (ledgerRuleResult u.leaveBalance leave.leaveType leave.reason leave.dates.length) } := by
  have hid := findLeave_id db req.id leave hl
  rw [transitionPut_approved_closed f db req leave u hl hs hu]
  cases hA : req.authUserId with
  | none =>
      cases hB : req.bodyApproverId with
      | none =>
          refine ⟨{ leave with status := "Approved" }, rfl, ?_, rfl, rfl, rfl, rfl, rfl, ?_⟩
          · simp [notify_findLeave, findLeave_setLeave, findLeave_setUser, hl, hid]
          · simp [notify_findUser, findUser_setLeave, findUser_setUser, hu]
      | some a =>
          refine ⟨{ leave with status := "Approved", approver := some a },
            rfl, ?_, rfl, rfl, rfl, rfl, rfl, ?_⟩
          · simp [notify_findLeave, findLeave_setLeave, findLeave_setUser, hl, hid]
          · simp [notify_findUser, findUser_setLeave, findUser_setUser, hu]
  | some a =>
      refine ⟨{ leave with status := "Approved", approver := some a },
        rfl, ?_, rfl, rfl, rfl, rfl, rfl, ?_⟩
      · simp [notify_findLeave, findLeave_setLeave, findLeave_setUser, hl, hid]
      · simp [notify_findUser, findUser_setLeave, findUser_setUser, hu]

/-! ### C8 -/

/-- Claim C8: the Transition handler never inspects the request's prior
status — the hypotheses place no constraint on `leave.status` — so every
Approved call applies Ledger Arithmetic again: both of two successive
Approved transitions on the same request open their trace with a ledger
application against the owner, and after the second one the stored balance
is the clamped rule applied twice. -/
theorem C8_repeated_approval (f : Faults) (db : DB) (req : TransitionReq)
    (leave : LeaveRequestDoc) (u : UserDoc)
    (hl : db.findLeave req.id = some leave)
    (hs : req.bodyStatus = some "Approved")
    (hu : db.findUser leave.user = some u) :
    (transitionPut f db req).2.2.head? = some (Event.ledgerApplied leave.user) ∧
    (transitionPut f (transitionPut f db req).1 req).2.2.head? =
      some (Event.ledgerApplied leave.user) ∧
    balanceOf (transitionPut f (transitionPut f db req).1 req).1 leave.user =
      some (ledgerRuleResult
        (ledgerRuleResult u.leaveBalance leave.leaveType leave.reason leave.dates.length)
        leave.leaveType leave.reason leave.dates.length) := by
  obtain ⟨lr2, e1, e2, eu, et, er, ed, es, e3⟩ :=
    transitionPut_approved_parts f db req leave u hl hs hu
  have hu2 : (transitionPut f db req).1.findUser lr2.user =
      some { u with leaveBalance :=
        (ledgerRuleResult u.leaveBalance leave.leaveType leave.reason leave.dates.length) } := by
    rw [eu]; exact e3
  obtain ⟨lr3, g1, g2, gu, gt, gr, gd, gs, g3⟩ :=
    transitionPut_approved_parts f (transitionPut f db req).1 req lr2
      { u with leaveBalance :=
        (ledgerRuleResult u.leaveBalance leave.leaveType leave.reason leave.dates.length) }
      e2 hs hu2
  refine ⟨e1, ?_, ?_⟩
  · rw [g1, eu]
  · unfold balanceOf
    rw [← eu, g3]
    simp [et, er, ed]

/-- Witness for `C8_repeated_approval` on the concrete store `exDB2`. -/
theorem C8_repeated_approval_witness :
    (transitionPut Faults.none exDB2 reqApprove).2.2.head? =
      some (Event.ledgerApplied exLeaveSick5.user) ∧
    (transitionPut Faults.none (transitionPut Faults.none exDB2 reqApprove).1 reqApprove).2.2.head? =
      some (Event.ledgerApplied exLeaveSick5.user) ∧
    balanceOf (transitionPut Faults.none (transitionPut Faults.none exDB2 reqApprove).1 reqApprove).1
        exLeaveSick5.user =
      some (ledgerRuleResult
        (ledgerRuleResult exUser1.leaveBalance exLeaveSick5.leaveType exLeaveSick5.reason
          exLeaveSick5.dates.length)
        exLeaveSick5.leaveType exLeaveSick5.reason exLeaveSick5.dates.length) :=
  C8_repeated_approval Faults.none exDB2 reqApprove exLeaveSick5 exUser1 rfl rfl rfl

/-! ### Response characterisations (shared helpers) -/

/-- The HTTP response of a transition is fully determined by the store and
the request body — in particular it never depends on emission faults. -/
theorem transitionPut_response (f : Faults) (db : DB) (req : TransitionReq) :
    (transitionPut f db req).2.1 =
      match db.findLeave req.id with
      | none => HttpRes.err 404 "Leave request not found"
      | some leave =>
          if req.bodyStatus == some "Approved" then
            match updateLeaveBalance (db.setLeave { leave with status := "Approved" })
                leave.user { leave with status := "Approved" } with
            | Except.error e => HttpRes.err 500 e
            | Except.ok _ => HttpRes.ok 200
          else HttpRes.ok 200 := by
  unfold transitionPut
  cases hfind : db.findLeave req.id with
  | none => rfl
  | some leave =>
      by_cases hs : req.bodyStatus = some "Approved"
      · simp only [hs]
        cases hub : updateLeaveBalance (db.setLeave { leave with status := "Approved" })
            leave.user { leave with status := "Approved" } with
        | error e => simp [hub]
        | ok db2 =>
            cases hA : req.authUserId <;> cases hB : req.bodyApproverId <;>
              simp [hub, statusTruthy]
      · have hs' : (req.bodyStatus == some "Approved") = false := by
          simpa using hs
        simp only [hs']
        cases hbs : req.bodyStatus <;>
          cases hA : req.authUserId <;> cases hB : req.bodyApproverId <;>
            by_cases ht : statusTruthy req.bodyStatus <;>
              simp_all [statusTruthy]

/-- The HTTP response of a submission is determined by the validation of
the body alone — never by the admin-notification block or its faults. -/
theorem submitPost_response (f : Faults) (db : DB) (sreq : SubmitReq) :
    (submitPost f db sreq).2.1 =
      match sreq.user with
      | none => HttpRes.err 400 "Required fields missing"
      | some _ =>
          if sreq.leaveType == "" || sreq.dates.isEmpty then
            HttpRes.err 400 "Required fields missing"
          else HttpRes.ok 201 := by
  unfold submitPost
  cases hu : sreq.user with
  | none => rfl
  | some uid =>
      by_cases hv : (sreq.leaveType == "" || sreq.dates.isEmpty) = true
      · simp [hv]
      · simp only [Bool.not_eq_true] at hv
        simp only [hv]
        cases hsel : selectTargetAdmin _ _ <;> simp [emitSubmissionNotif, hv]

/-- A valid submission body against the sample store. -/
def exSubmit : SubmitReq :=
  { user := some 1, leaveType := "Full Day", dates := ["d1"], reason := "Sick"
    otherReason := none, halfDayType := none }

/-! ### C7 -/

/-- Claim C7: failures raised inside notification creation or email
sending are caught at the emission boundary — the HTTP response of both the
submission and the transition handler is identical with and without
injected emission faults, and stays 200/201 on resolving inputs even when
every emission step fails. -/
theorem C7_emission_failures_swallowed (f : Faults) (db : DB) (req : TransitionReq)
    (sreq : SubmitReq) :
    (transitionPut f db req).2.1 = (transitionPut Faults.none db req).2.1 ∧
    (submitPost f db sreq).2.1 = (submitPost Faults.none db sreq).2.1 ∧
    (∀ leave u, db.findLeave req.id = some leave → db.findUser leave.user = some u →
      req.bodyStatus = some "Approved" → (transitionPut f db req).2.1 = HttpRes.ok 200) ∧
    (∀ uid, sreq.user = some uid → sreq.leaveType ≠ "" → sreq.dates ≠ [] →
      (submitPost f db sreq).2.1 = HttpRes.ok 201) := by
  refine ⟨?_, ?_, ?_, ?_⟩
  · rw [transitionPut_response, transitionPut_response]
  · rw [submitPost_response, submitPost_response]
  · intro leave u hl hu hs
    rw [transitionPut_approved_closed f db req leave u hl hs hu]
  · intro uid hu hlt hd
    rw [submitPost_response, hu]
    have h1 : (sreq.leaveType == "") = false := by simpa using hlt
    have h2 : sreq.dates.isEmpty = false := by
      cases hds : sreq.dates with
      | nil => exact absurd hds hd
      | cons a l => rfl
    simp [h1, h2]

/-- Witness for `C7_emission_failures_swallowed`: with both emission faults
injected, the approval still answers 200 and the submission still 201. -/
theorem C7_emission_failures_swallowed_witness :
    (transitionPut ⟨true, true⟩ exDB2 reqApprove).2.1 =
      (transitionPut Faults.none exDB2 reqApprove).2.1 ∧
    (submitPost ⟨true, true⟩ exDB2 exSubmit).2.1 =
      (submitPost Faults.none exDB2 exSubmit).2.1 ∧
    (transitionPut ⟨true, true⟩ exDB2 reqApprove).2.1 = HttpRes.ok 200 ∧
    (submitPost ⟨true, true⟩ exDB2 exSubmit).2.1 = HttpRes.ok 201 := by
  obtain ⟨a, b, c, d⟩ := C7_emission_failures_swallowed ⟨true, true⟩ exDB2 reqApprove exSubmit
  exact ⟨a, b, c exLeaveSick5 exUser1 rfl rfl rfl, d 1 rfl (by decide) (by decide)⟩

/-! ### C9 -/

/-- The requester-facing base message is always the lowercased-status
sentence; the source's special case for "approved" coincides with it. -/
theorem basicMessage_eq (s : String) :
    (if lowerStr s == "approved" then ("Your leave request has been approved" : String)
     else "Your leave request has been " ++ lowerStr s) =
    "Your leave request has been " ++ lowerStr s := by
  by_cases h : lowerStr s = "approved"
  · simp [h]
  · simp [h]

/-- Claim C9, as stated, is false on the code: when an approver user is
resolved, the persisted message carries a " by NAME." suffix, so for status
"Pending" with approver Alice the message is not the bare lowercased-status
sentence the claim requires (the type is still "leave_rejected"). -/
theorem C9_counterexample :
    ((notifyRequesterOfStatusChange Faults.none exDB2 exLeaveSick5 (some 2) "Pending").1.notifs.map
      (fun n => (n.type, n.message))) =
      [("leave_rejected", "Your leave request has been pending by Alice.")] ∧
    "Your leave request has been pending by Alice." ≠ "Your leave request has been pending" :=
  ⟨rfl, by decide⟩

/-- Claim C9 (amended: the bare message gains a " by NAME." suffix whenever
the effective approver resolves to a user): every status-change emission
persists one notification to the requester whose type is "leave_approved"
exactly when the lowercased status is "approved" and "leave_rejected" for
every other status, and whose message is "Your leave request has been
STATUSLOWER" followed by the optional approver suffix. -/
theorem C9_status_notification (db : DB) (leave : LeaveRequestDoc) (approverId : Option Nat)
    (newStatus : String) :
    ∃ n : NotificationDoc,
      (notifyRequesterOfStatusChange Faults.none db leave approverId newStatus).1.notifs =
        db.notifs ++ [n] ∧
      n.recipient = leave.user ∧
      n.type = (if lowerStr newStatus = "approved" then "leave_approved" else "leave_rejected") ∧
      n.message = "Your leave request has been " ++ lowerStr newStatus ++
        (match (match approverId with
                | some a => some a
                | none => leave.approver).bind db.findUser with
         | some au => " by " ++ au.name ++ "."
         | none => "") := by
  refine ⟨statusNotifFor db leave approverId newStatus, rfl, rfl, ?_, ?_⟩
  · by_cases h : lowerStr newStatus = "approved" <;> simp [statusNotifFor, h]
  · unfold statusNotifFor
    simp only [basicMessage_eq]
    cases hA : approverId with
    | some a =>
        cases hF : db.findUser a with
        | some au => simp [hF, String.append_assoc]
        | none => simp [hF]
    | none =>
        cases hB : leave.approver with
        | some a =>
            cases hF : db.findUser a with
            | some au => simp [hB, hF, String.append_assoc]
            | none => simp [hB, hF]
        | none => simp [hB]

/-! ### C10 -/

/-- An admin whose department merely contains "HR" as a substring. -/
def exAdminHRX : UserDoc :=
  { id := 3, name := "Cara", department := "HR Department", roles := ["admin"], createdAt := 2
    leaveBalance := { annual := 20, medical := 4, shortleave := 24, leavesTaken := 0 } }

/-- A store where the only admin sits in the "HR Department" department. -/
def exDB4 : DB := { users := [exUser1, exAdminHRX], leaves := [exLeaveSick5], notifs := [], nextId := 20 }

/-- Claim C10: the submission fallback's unanchored `/(hr|human resources)/i`
is strictly weaker than the sweep's anchored `/^(hr|human resources)$/i`:
every sweep-matching department also submission-matches, "HR Department"
submission-matches but does not sweep-match, and on a concrete store the
submission path selects the "HR Department" admin whom the reminder sweep's
admin query excludes. -/
theorem C10_hr_regex_mismatch :
    (∀ dept : String, sweepHrMatch dept = true → submitHrMatch dept = true) ∧
    submitHrMatch "HR Department" = true ∧
    sweepHrMatch "HR Department" = false ∧
    selectTargetAdmin exDB4 (some "Engineering") = some exAdminHRX ∧
    exAdminHRX ∉ reminderAdmins exDB4 exUser1 := by
  refine ⟨?_, by decide, by decide, by decide, by decide⟩
  intro dept h
  unfold sweepHrMatch at h
  rw [Bool.or_eq_true] at h
  unfold submitHrMatch containsCI
  rcases h with h | h <;> rw [beq_iff_eq] at h <;> rw [h] <;> decide

/-- Witness for `C10_hr_regex_mismatch` at the department "HR". -/
theorem C10_hr_regex_mismatch_witness : submitHrMatch "HR" = true :=
  C10_hr_regex_mismatch.1 "HR" (by decide)

/-! ### Reminder-sweep counting lemmas (shared helpers) -/

theorem countKey_ne_zero_iff (db : DB) (k : String) :
    db.countKey k ≠ 0 ↔ db.notifs.any (fun n => n.notification_id == k) = true := by
  unfold DB.countKey
  rw [Ne, List.length_eq_zero, List.filter_eq_nil_iff]
  simp [List.any_eq_true]

theorem sweepAdminStep_users (l : LeaveRequestDoc) (u : UserDoc) (h : String)
    (db : DB) (a : UserDoc) : (sweepAdminStep l u h db a).users = db.users := by
  unfold sweepAdminStep
  split <;> rfl

theorem sweepAdminStep_leaves (l : LeaveRequestDoc) (u : UserDoc) (h : String)
    (db : DB) (a : UserDoc) : (sweepAdminStep l u h db a).leaves = db.leaves := by
  unfold sweepAdminStep
  split <;> rfl

theorem sweepAdminStep_countKey_ne (l : LeaveRequestDoc) (u : UserDoc) (h : String)
    (db : DB) (a : UserDoc) (k : String) (hk : db.countKey k ≠ 0) :
    (sweepAdminStep l u h db a).countKey k = db.countKey k := by
  unfold sweepAdminStep
  split
  · rfl
  · rename_i hany
    have hnidk : reminderKey l.id a.id h ≠ k := by
      intro he
      exact hany (he ▸ (countKey_ne_zero_iff db k).mp hk)
    unfold DB.countKey
    simp [List.filter_append, mkReminderNotif, hnidk]

theorem sweepAdminStep_countKey_le (l : LeaveRequestDoc) (u : UserDoc) (h : String)
    (db : DB) (a : UserDoc) (k : String) (hk : db.countKey k ≤ 1) :
    (sweepAdminStep l u h db a).countKey k ≤ 1 := by
  unfold sweepAdminStep
  split
  · exact hk
  · rename_i hany
    by_cases he : reminderKey l.id a.id h = k
    · have h0 : db.countKey k = 0 := by
        by_contra h'
        exact hany (he ▸ (countKey_ne_zero_iff db k).mp h')
      unfold DB.countKey at h0 ⊢
      simp [List.filter_append, mkReminderNotif, he, h0]
    · unfold DB.countKey at hk ⊢
      simpa [List.filter_append, mkReminderNotif, he] using hk

theorem sweepAdminStep_creates (l : LeaveRequestDoc) (u : UserDoc) (h : String)
    (db : DB) (a : UserDoc) :
    (sweepAdminStep l u h db a).countKey (reminderKey l.id a.id h) ≠ 0 := by
  unfold sweepAdminStep
  split
  · rename_i hany
    exact (countKey_ne_zero_iff db _).mpr hany
  · unfold DB.countKey
    simp [List.filter_append, mkReminderNotif]


theorem foldlAdmin_users (l : LeaveRequestDoc) (u : UserDoc) (h : String)
    (admins : List UserDoc) (db : DB) :
    (admins.foldl (sweepAdminStep l u h) db).users = db.users := by
  induction admins generalizing db with
  | nil => rfl
  | cons a rest ih => rw [List.foldl_cons, ih, sweepAdminStep_users]

theorem foldlAdmin_leaves (l : LeaveRequestDoc) (u : UserDoc) (h : String)
    (admins : List UserDoc) (db : DB) :
    (admins.foldl (sweepAdminStep l u h) db).leaves = db.leaves := by
  induction admins generalizing db with
  | nil => rfl
  | cons a rest ih => rw [List.foldl_cons, ih, sweepAdminStep_leaves]

theorem foldlAdmin_countKey_ne (l : LeaveRequestDoc) (u : UserDoc) (h : String)
    (admins : List UserDoc) (db : DB) (k : String) (hk : db.countKey k ≠ 0) :
    (admins.foldl (sweepAdminStep l u h) db).countKey k ≠ 0 := by
  induction admins generalizing db with
  | nil => exact hk
  | cons a rest ih =>
      rw [List.foldl_cons]
      exact ih _ (by rw [sweepAdminStep_countKey_ne l u h db a k hk]; exact hk)

theorem foldlAdmin_countKey_le (l : LeaveRequestDoc) (u : UserDoc) (h : String)
    (admins : List UserDoc) (db : DB) (k : String) (hk : db.countKey k ≤ 1) :
    (admins.foldl (sweepAdminStep l u h) db).countKey k ≤ 1 := by
  induction admins generalizing db with
  | nil => exact hk
  | cons a rest ih =>
      rw [List.foldl_cons]
      exact ih _ (sweepAdminStep_countKey_le l u h db a k hk)

theorem foldlAdmin_creates (l : LeaveRequestDoc) (u : UserDoc) (h : String)
    (admins : List UserDoc) (db : DB) (a : UserDoc) (ha : a ∈ admins) :
    (admins.foldl (sweepAdminStep l u h) db).countKey (reminderKey l.id a.id h) ≠ 0 := by
  induction admins generalizing db with
  | nil => cases ha
  | cons b rest ih =>
      rw [List.foldl_cons]
      rcases List.mem_cons.mp ha with he | hm
      · subst he
        exact foldlAdmin_countKey_ne l u h rest _ _ (sweepAdminStep_creates l u h db a)
      · exact ih _ hm

theorem findUser_congr (db db' : DB) (hus : db'.users = db.users) (uid : Nat) :
    db'.findUser uid = db.findUser uid := by
  unfold DB.findUser
  rw [hus]

theorem reminderAdmins_congr (db db' : DB) (hus : db'.users = db.users) (u : UserDoc) :
    reminderAdmins db' u = reminderAdmins db u := by
  unfold reminderAdmins
  rw [hus]

theorem sweepLeaveStep_users (h : String) (db : DB) (l : LeaveRequestDoc) :
    (sweepLeaveStep h db l).users = db.users := by
  unfold sweepLeaveStep
  cases hf : db.findUser l.user with
  | none => rfl
  | some u =>
      dsimp only
      by_cases hd : (u.department == "") = true
      · rw [if_pos hd]
      · rw [if_neg hd]
        exact foldlAdmin_users l u h _ db

theorem sweepLeaveStep_leaves (h : String) (db : DB) (l : LeaveRequestDoc) :
    (sweepLeaveStep h db l).leaves = db.leaves := by
  unfold sweepLeaveStep
  cases hf : db.findUser l.user with
  | none => rfl
  | some u =>
      dsimp only
      by_cases hd : (u.department == "") = true
      · rw [if_pos hd]
      · rw [if_neg hd]
        exact foldlAdmin_leaves l u h _ db

theorem sweepLeaveStep_countKey_ne (h : String) (db : DB) (l : LeaveRequestDoc)
    (k : String) (hk : db.countKey k ≠ 0) :
    (sweepLeaveStep h db l).countKey k ≠ 0 := by
  unfold sweepLeaveStep
  cases hf : db.findUser l.user with
  | none => exact hk
  | some u =>
      dsimp only
      by_cases hd : (u.department == "") = true
      · rw [if_pos hd]
        exact hk
      · rw [if_neg hd]
        exact foldlAdmin_countKey_ne l u h _ db k hk

theorem sweepLeaveStep_countKey_le (h : String) (db : DB) (l : LeaveRequestDoc)
    (k : String) (hk : db.countKey k ≤ 1) :
    (sweepLeaveStep h db l).countKey k ≤ 1 := by
  unfold sweepLeaveStep
  cases hf : db.findUser l.user with
  | none => exact hk
  | some u =>
      dsimp only
      by_cases hd : (u.department == "") = true
      · rw [if_pos hd]
        exact hk
      · rw [if_neg hd]
        exact foldlAdmin_countKey_le l u h _ db k hk

theorem sweepLeaveStep_creates (h : String) (db : DB) (l : LeaveRequestDoc)
    (u a : UserDoc) (hu : db.findUser l.user = some u) (hdept : u.department ≠ "")
    (ha : a ∈ reminderAdmins db u) :
    (sweepLeaveStep h db l).countKey (reminderKey l.id a.id h) ≠ 0 := by
  unfold sweepLeaveStep
  rw [hu]
  have hdept' : (u.department == "") = false := by
    simpa using hdept
  simp only [hdept', Bool.false_eq_true, if_false]
  exact foldlAdmin_creates l u h _ db a ha


theorem foldlLeave_users (h : String) (leaves : List LeaveRequestDoc) (db : DB) :
    (leaves.foldl (sweepLeaveStep h) db).users = db.users := by
  induction leaves generalizing db with
  | nil => rfl
  | cons l rest ih => rw [List.foldl_cons, ih, sweepLeaveStep_users]

theorem foldlLeave_countKey_ne (h : String) (leaves : List LeaveRequestDoc) (db : DB)
    (k : String) (hk : db.countKey k ≠ 0) :
    (leaves.foldl (sweepLeaveStep h) db).countKey k ≠ 0 := by
  induction leaves generalizing db with
  | nil => exact hk
  | cons l rest ih =>
      rw [List.foldl_cons]
      exact ih _ (sweepLeaveStep_countKey_ne h db l k hk)

theorem foldlLeave_countKey_le (h : String) (leaves : List LeaveRequestDoc) (db : DB)
    (k : String) (hk : db.countKey k ≤ 1) :
    (leaves.foldl (sweepLeaveStep h) db).countKey k ≤ 1 := by
  induction leaves generalizing db with
  | nil => exact hk
  | cons l rest ih =>
      rw [List.foldl_cons]
      exact ih _ (sweepLeaveStep_countKey_le h db l k hk)

theorem foldlLeave_creates (h : String) (leaves : List LeaveRequestDoc) (db0 db : DB)
    (l : LeaveRequestDoc) (u a : UserDoc)
    (hl : l ∈ leaves)
    (hus : db.users = db0.users)
    (hu : db0.findUser l.user = some u)
    (hdept : u.department ≠ "")
    (ha : a ∈ reminderAdmins db0 u) :
    (leaves.foldl (sweepLeaveStep h) db).countKey (reminderKey l.id a.id h) ≠ 0 := by
  induction leaves generalizing db with
  | nil => cases hl
  | cons l2 rest ih =>
      rw [List.foldl_cons]
      rcases List.mem_cons.mp hl with he | hm
      · subst he
        have hstep : (sweepLeaveStep h db l).countKey (reminderKey l.id a.id h) ≠ 0 := by
          apply sweepLeaveStep_creates h db l u a
          · rw [findUser_congr db0 db hus]; exact hu
          · exact hdept
          · rw [reminderAdmins_congr db0 db hus]; exact ha
        exact foldlLeave_countKey_ne h rest _ _ hstep
      · exact ih _ hm (by rw [sweepLeaveStep_users]; exact hus)

theorem sweepTick_users (h : String) (db : DB) : (sweepTick h db).users = db.users := by
  unfold sweepTick
  exact foldlLeave_users h _ db

theorem sweepTick_countKey_ne (h : String) (db : DB) (k : String) (hk : db.countKey k ≠ 0) :
    (sweepTick h db).countKey k ≠ 0 := by
  unfold sweepTick
  exact foldlLeave_countKey_ne h _ db k hk

theorem sweepTick_countKey_le (h : String) (db : DB) (k : String) (hk : db.countKey k ≤ 1) :
    (sweepTick h db).countKey k ≤ 1 := by
  unfold sweepTick
  exact foldlLeave_countKey_le h _ db k hk

theorem sweepTick_creates (h : String) (db : DB) (l : LeaveRequestDoc) (u a : UserDoc)
    (hl : l ∈ db.leaves) (hst : containsCI "pending" l.status = true)
    (hu : db.findUser l.user = some u) (hdept : u.department ≠ "")
    (ha : a ∈ reminderAdmins db u) :
    (sweepTick h db).countKey (reminderKey l.id a.id h) ≠ 0 := by
  unfold sweepTick
  exact foldlLeave_creates h _ db db l u a
    (List.mem_filter.mpr ⟨hl, hst⟩) rfl hu hdept ha

theorem emitSubmission_idem (db : DB) (reqId : Nat) (ud : Option UserDoc) (admin : UserDoc) :
    (emitSubmissionNotif Faults.none
        (emitSubmissionNotif Faults.none db reqId ud admin).1 reqId ud admin).1 =
      (emitSubmissionNotif Faults.none db reqId ud admin).1 := by
  unfold emitSubmissionNotif Faults.none
  by_cases h : db.notifs.any (fun n =>
      n.notification_id == submitNotifId reqId admin.id && n.recipient == admin.id &&
        n.relatedLeaveRequest == some reqId) = true
  · simp [h]
  · simp [h, List.any_append]


/-! ### C6 -/

/-- Claim C6: notification creation is idempotent on its dedup key — for a
pending request whose owner and matching admin resolve and whose hour key
is fresh, two reminder sweeps within the same hour leave exactly one
reminder notification for the (request, admin) pair, and repeating the
submission-notification emission for the same (request, admin) pair leaves
the store unchanged. -/
theorem C6_notification_idempotence (db db2 : DB) (hourKey : String)
    (l : LeaveRequestDoc) (u a : UserDoc) (reqId : Nat) (ud : Option UserDoc) (admin : UserDoc)
    (hl : l ∈ db.leaves) (hst : containsCI "pending" l.status = true)
    (hu : db.findUser l.user = some u) (hdept : u.department ≠ "")
    (ha : a ∈ reminderAdmins db u)
    (hk : db.countKey (reminderKey l.id a.id hourKey) = 0) :
    (sweepTick hourKey db).countKey (reminderKey l.id a.id hourKey) = 1 ∧
    (sweepTick hourKey (sweepTick hourKey db)).countKey (reminderKey l.id a.id hourKey) = 1 ∧
    (emitSubmissionNotif Faults.none
        (emitSubmissionNotif Faults.none db2 reqId ud admin).1 reqId ud admin).1 =
      (emitSubmissionNotif Faults.none db2 reqId ud admin).1 := by
  have h1ne := sweepTick_creates hourKey db l u a hl hst hu hdept ha
  have h1le := sweepTick_countKey_le hourKey db (reminderKey l.id a.id hourKey) (by omega)
  have h1 : (sweepTick hourKey db).countKey (reminderKey l.id a.id hourKey) = 1 := by omega
  refine ⟨h1, ?_, emitSubmission_idem db2 reqId ud admin⟩
  have h2ne := sweepTick_countKey_ne hourKey (sweepTick hourKey db)
    (reminderKey l.id a.id hourKey) (by omega)
  have h2le := sweepTick_countKey_le hourKey (sweepTick hourKey db)
    (reminderKey l.id a.id hourKey) (by omega)
  omega

/-- Witness for `C6_notification_idempotence` on the concrete store `exDB2`. -/
theorem C6_notification_idempotence_witness :
    (sweepTick "2026101213" exDB2).countKey (reminderKey exLeaveSick5.id exApprover.id "2026101213") = 1 ∧
    (sweepTick "2026101213" (sweepTick "2026101213" exDB2)).countKey
      (reminderKey exLeaveSick5.id exApprover.id "2026101213") = 1 ∧
    (emitSubmissionNotif Faults.none
        (emitSubmissionNotif Faults.none exDB2 20 (some exUser1) exApprover).1
        20 (some exUser1) exApprover).1 =
      (emitSubmissionNotif Faults.none exDB2 20 (some exUser1) exApprover).1 :=
  C6_notification_idempotence exDB2 exDB2 "2026101213" exLeaveSick5 exUser1 exApprover 20 (some exUser1) exApprover
    (by decide) (by decide) rfl (by decide) (by decide) rfl


/-! ### Submission-selection lemmas (shared helpers) -/

theorem pickEarliest_none_iff (l : List UserDoc) : pickEarliest l = none ↔ l = [] := by
  cases l with
  | nil => simp [pickEarliest]
  | cons x xs =>
      simp only [pickEarliest]
      constructor
      · intro h
        cases hx : pickEarliest xs <;> rw [hx] at h <;> dsimp only at h
        · simp at h
        · split at h <;> simp at h
      · intro h
        simp at h

theorem pickEarliest_mem (l : List UserDoc) (a : UserDoc) (h : pickEarliest l = some a) :
    a ∈ l := by
  induction l generalizing a with
  | nil => cases h
  | cons x xs ih =>
      unfold pickEarliest at h
      cases hx : pickEarliest xs with
      | none =>
          rw [hx] at h
          simp at h
          simp [h]
      | some v =>
          rw [hx] at h
          dsimp only at h
          split at h
          · cases h
            exact List.mem_cons_of_mem _ (ih _ hx)
          · cases h
            exact List.mem_cons_self _ _

theorem pickEarliest_min (l : List UserDoc) (a : UserDoc) (h : pickEarliest l = some a) :
    ∀ b ∈ l, a.createdAt ≤ b.createdAt := by
  induction l generalizing a with
  | nil => cases h
  | cons x xs ih =>
      intro b hb
      unfold pickEarliest at h
      cases hx : pickEarliest xs with
      | none =>
          rw [hx] at h
          simp at h
          have hxs : xs = [] := (pickEarliest_none_iff xs).mp hx
          subst hxs
          rcases List.mem_cons.mp hb with he | hm
          · subst he; rw [h]
          · cases hm
      | some v =>
          rw [hx] at h
          dsimp only at h
          split at h
          · cases h
            rcases List.mem_cons.mp hb with he | hm
            · subst he
              rename_i hlt
              exact le_of_lt hlt
            · exact ih _ hx b hm
          · cases h
            rcases List.mem_cons.mp hb with he | hm
            · subst he
              exact le_refl _
            · rename_i hlt
              exact le_trans (le_of_not_lt hlt) (ih _ hx b hm)


theorem selectTargetAdmin_spec (db : DB) (d : String) :
    ((∃ a, a ∈ db.users ∧ (a.roles.contains "admin" && a.department == d) = true) →
      ∃ a, selectTargetAdmin db (some d) = some a ∧ a ∈ db.users ∧
        (a.roles.contains "admin" && a.department == d) = true ∧
        ∀ b ∈ db.users, (b.roles.contains "admin" && b.department == d) = true →
          a.createdAt ≤ b.createdAt) ∧
    ((¬ ∃ a, a ∈ db.users ∧ (a.roles.contains "admin" && a.department == d) = true) →
      (∃ a, a ∈ db.users ∧ (a.roles.contains "admin" && submitHrMatch a.department) = true) →
      ∃ a, selectTargetAdmin db (some d) = some a ∧ a ∈ db.users ∧
        (a.roles.contains "admin" && submitHrMatch a.department) = true ∧
        ∀ b ∈ db.users, (b.roles.contains "admin" && submitHrMatch b.department) = true →
          a.createdAt ≤ b.createdAt) ∧
    ((¬ ∃ a, a ∈ db.users ∧ (a.roles.contains "admin" && a.department == d) = true) →
      (¬ ∃ a, a ∈ db.users ∧ (a.roles.contains "admin" && submitHrMatch a.department) = true) →
      selectTargetAdmin db (some d) = none) := by
  have hsel : selectTargetAdmin db (some d) =
      (match pickEarliest (db.users.filter
          (fun a => a.roles.contains "admin" && a.department == d)) with
       | some a => some a
       | none => pickEarliest (db.users.filter
          (fun a => a.roles.contains "admin" && submitHrMatch a.department))) := rfl
  refine ⟨?_, ?_, ?_⟩
  · rintro ⟨a, ha, hp⟩
    have hne : db.users.filter (fun a => a.roles.contains "admin" && a.department == d) ≠ [] := by
      rw [Ne, List.filter_eq_nil_iff]
      push_neg
      exact ⟨a, ha, by simpa using hp⟩
    cases he : pickEarliest (db.users.filter
        (fun a => a.roles.contains "admin" && a.department == d)) with
    | none => exact absurd ((pickEarliest_none_iff _).mp he) hne
    | some w =>
        have hmem := pickEarliest_mem _ _ he
        have hmin := pickEarliest_min _ _ he
        refine ⟨w, by rw [hsel, he], (List.mem_filter.mp hmem).1,
          (List.mem_filter.mp hmem).2, ?_⟩
        intro b hb hpb
        exact hmin b (List.mem_filter.mpr ⟨hb, hpb⟩)
  · intro hno
    rintro ⟨a, ha, hp⟩
    have hnil : db.users.filter (fun a => a.roles.contains "admin" && a.department == d) = [] := by
      rw [List.filter_eq_nil_iff]
      intro b hb hpb
      exact hno ⟨b, hb, hpb⟩
    have he0 : pickEarliest (db.users.filter
        (fun a => a.roles.contains "admin" && a.department == d)) = none := by
      rw [(pickEarliest_none_iff _), hnil]
    have hne : db.users.filter (fun a => a.roles.contains "admin" && submitHrMatch a.department) ≠ [] := by
      rw [Ne, List.filter_eq_nil_iff]
      push_neg
      exact ⟨a, ha, by simpa using hp⟩
    cases he : pickEarliest (db.users.filter
        (fun a => a.roles.contains "admin" && submitHrMatch a.department)) with
    | none => exact absurd ((pickEarliest_none_iff _).mp he) hne
    | some w =>
        have hmem := pickEarliest_mem _ _ he
        have hmin := pickEarliest_min _ _ he
        refine ⟨w, by rw [hsel, he0, he], (List.mem_filter.mp hmem).1,
          (List.mem_filter.mp hmem).2, ?_⟩
        intro b hb hpb
        exact hmin b (List.mem_filter.mpr ⟨hb, hpb⟩)
  · intro hno1 hno2
    have hnil1 : db.users.filter (fun a => a.roles.contains "admin" && a.department == d) = [] := by
      rw [List.filter_eq_nil_iff]
      intro b hb hpb
      exact hno1 ⟨b, hb, hpb⟩
    have hnil2 : db.users.filter (fun a => a.roles.contains "admin" && submitHrMatch a.department) = [] := by
      rw [List.filter_eq_nil_iff]
      intro b hb hpb
      exact hno2 ⟨b, hb, hpb⟩
    rw [hsel, (pickEarliest_none_iff _).mpr hnil1, (pickEarliest_none_iff _).mpr hnil2]


theorem findUser_extendLeaves (db : DB) (ls : List LeaveRequestDoc) (nid uid : Nat) :
    DB.findUser { db with leaves := ls, nextId := nid } uid = db.findUser uid := rfl

theorem selectTargetAdmin_extendLeaves (db : DB) (ls : List LeaveRequestDoc) (nid : Nat)
    (dep : Option String) :
    selectTargetAdmin { db with leaves := ls, nextId := nid } dep = selectTargetAdmin db dep := rfl

theorem submitPost_closed (db : DB) (sreq : SubmitReq) (uid : Nat) (u : UserDoc)
    (hu : sreq.user = some uid)
    (hlt : (sreq.leaveType == "") = false)
    (hde : sreq.dates.isEmpty = false)
    (hfind : db.findUser uid = some u)
    (hfresh : ∀ n ∈ db.notifs, (n.relatedLeaveRequest == some db.nextId) = false) :
    (submitPost Faults.none db sreq).1.notifs =
      db.notifs ++
        (match selectTargetAdmin db (some u.department) with
         | some a =>
             [{ notification_id := submitNotifId db.nextId a.id
                recipient := a.id
                sender := some u.id
                type := "leave_submitted"
                message := "New leave request from " ++ submitterName (some u) ++ "."
                status := "unread"
                relatedLeaveRequest := some db.nextId }]
         | none => []) ∧
    (submitPost Faults.none db sreq).2.2 =
      (match selectTargetAdmin db (some u.department) with
       | some a => [Event.adminNotifyCreated a.id, Event.emailAttempt a.id]
       | none => [Event.warnNoAdmin]) := by
  have hany : ∀ (nid : String) (aid : Nat), db.notifs.any (fun n =>
      n.notification_id == nid && n.recipient == aid &&
        n.relatedLeaveRequest == some db.nextId) = false := by
    intro nid aid
    rw [List.any_eq_false]
    intro n hn
    simp [hfresh n hn]
  unfold submitPost
  rw [hu]
  simp only [hlt, hde, Bool.or_self, Bool.false_eq_true, if_false]
  simp only [findUser_extendLeaves, selectTargetAdmin_extendLeaves, hfind, Option.map_some]
  cases hselx : selectTargetAdmin db (some u.department) with
  | none => simp [hselx]
  | some a =>
      simp only [hselx]
      unfold emitSubmissionNotif
      simp only [Faults.none]
      simp [hany, submitterName, hselx, String.append_assoc]


/-! ### C5 -/

/-- Claim C5: a valid submission creates the request (201) and selects at
most one admin recipient, in priority order — the earliest-created admin in
the submitter's department, else the earliest-created admin whose
department matches the case-insensitive "hr"/"human resources" substring
pattern, else no notification exists for the new request, a warning is the
only emitted event, and the request is still created successfully. -/
theorem C5_admin_selection (db : DB) (sreq : SubmitReq) (uid : Nat) (u : UserDoc)
    (hu : sreq.user = some uid)
    (hlt : sreq.leaveType ≠ "")
    (hd : sreq.dates ≠ [])
    (hfind : db.findUser uid = some u)
    (hfresh : ∀ n ∈ db.notifs, n.relatedLeaveRequest ≠ some db.nextId) :
    (submitPost Faults.none db sreq).2.1 = HttpRes.ok 201 ∧
    ((submitPost Faults.none db sreq).1.notifs.filter
        (fun n => n.relatedLeaveRequest == some db.nextId)).length ≤ 1 ∧
    ((∃ a, a ∈ db.users ∧ a.roles.contains "admin" = true ∧ a.department = u.department) →
      ∃ a, a ∈ db.users ∧ a.roles.contains "admin" = true ∧ a.department = u.department ∧
        (∀ b ∈ db.users, b.roles.contains "admin" = true → b.department = u.department →
          a.createdAt ≤ b.createdAt) ∧
        ((submitPost Faults.none db sreq).1.notifs.filter
            (fun n => n.relatedLeaveRequest == some db.nextId)).map (fun n => n.recipient) =
          [a.id]) ∧
    ((¬ ∃ a, a ∈ db.users ∧ a.roles.contains "admin" = true ∧ a.department = u.department) →
      (∃ a, a ∈ db.users ∧ a.roles.contains "admin" = true ∧ submitHrMatch a.department = true) →
      ∃ a, a ∈ db.users ∧ a.roles.contains "admin" = true ∧ submitHrMatch a.department = true ∧
        (∀ b ∈ db.users, b.roles.contains "admin" = true → submitHrMatch b.department = true →
          a.createdAt ≤ b.createdAt) ∧
        ((submitPost Faults.none db sreq).1.notifs.filter
            (fun n => n.relatedLeaveRequest == some db.nextId)).map (fun n => n.recipient) =
          [a.id]) ∧
    ((¬ ∃ a, a ∈ db.users ∧ a.roles.contains "admin" = true ∧ a.department = u.department) →
      (¬ ∃ a, a ∈ db.users ∧ a.roles.contains "admin" = true ∧ submitHrMatch a.department = true) →
      ((submitPost Faults.none db sreq).1.notifs.filter
          (fun n => n.relatedLeaveRequest == some db.nextId)) = [] ∧
      (submitPost Faults.none db sreq).2.2 = [Event.warnNoAdmin]) := by
  have hlt' : (sreq.leaveType == "") = false := by simpa using hlt
  have hde' : sreq.dates.isEmpty = false := by
    cases hds : sreq.dates with
    | nil => exact absurd hds hd
    | cons x xs => rfl
  have hfresh' : ∀ n ∈ db.notifs, (n.relatedLeaveRequest == some db.nextId) = false := by
    intro n hn
    simpa using hfresh n hn
  have hclosed := submitPost_closed db sreq uid u hu hlt' hde' hfind hfresh'
  have hfilter : ∀ X : List NotificationDoc,
      (db.notifs ++ X).filter (fun n => n.relatedLeaveRequest == some db.nextId) =
        X.filter (fun n => n.relatedLeaveRequest == some db.nextId) := by
    intro X
    rw [List.filter_append,
      List.filter_eq_nil_iff.mpr (fun n hn => by simp [hfresh' n hn]), List.nil_append]
  have cv1 : ∀ a : UserDoc, ((a.roles.contains "admin" && a.department == u.department) = true) ↔
      (a.roles.contains "admin" = true ∧ a.department = u.department) := by
    intro a
    rw [Bool.and_eq_true, beq_iff_eq]
  have cv2 : ∀ a : UserDoc, ((a.roles.contains "admin" && submitHrMatch a.department) = true) ↔
      (a.roles.contains "admin" = true ∧ submitHrMatch a.department = true) := by
    intro a
    rw [Bool.and_eq_true]
  refine ⟨?_, ?_, ?_, ?_, ?_⟩
  · rw [submitPost_response, hu]
    simp [hlt', hde']
  · rw [hclosed.1, hfilter]
    cases hsel : selectTargetAdmin db (some u.department) <;> simp
  · rintro ⟨a0, ha0, hr0, hd0⟩
    obtain ⟨a, hsel, hmem, hp, hmin⟩ :=
      (selectTargetAdmin_spec db u.department).1 ⟨a0, ha0, (cv1 a0).mpr ⟨hr0, hd0⟩⟩
    refine ⟨a, hmem, ((cv1 a).mp hp).1, ((cv1 a).mp hp).2,
      fun b hb h1 h2 => hmin b hb ((cv1 b).mpr ⟨h1, h2⟩), ?_⟩
    rw [hclosed.1, hfilter, hsel]
    simp
  · intro hno hex
    rcases hex with ⟨a0, ha0, hr0, hh0⟩
    have hno' : ¬ ∃ a, a ∈ db.users ∧ (a.roles.contains "admin" && a.department == u.department) = true := by
      rintro ⟨a, ha, hp⟩
      exact hno ⟨a, ha, ((cv1 a).mp hp).1, ((cv1 a).mp hp).2⟩
    obtain ⟨a, hsel, hmem, hp, hmin⟩ :=
      (selectTargetAdmin_spec db u.department).2.1 hno' ⟨a0, ha0, (cv2 a0).mpr ⟨hr0, hh0⟩⟩
    refine ⟨a, hmem, ((cv2 a).mp hp).1, ((cv2 a).mp hp).2,
      fun b hb h1 h2 => hmin b hb ((cv2 b).mpr ⟨h1, h2⟩), ?_⟩
    rw [hclosed.1, hfilter, hsel]
    simp
  · intro hno1 hno2
    have hno1' : ¬ ∃ a, a ∈ db.users ∧ (a.roles.contains "admin" && a.department == u.department) = true := by
      rintro ⟨a, ha, hp⟩
      exact hno1 ⟨a, ha, ((cv1 a).mp hp).1, ((cv1 a).mp hp).2⟩
    have hno2' : ¬ ∃ a, a ∈ db.users ∧ (a.roles.contains "admin" && submitHrMatch a.department) = true := by
      rintro ⟨a, ha, hp⟩
      exact hno2 ⟨a, ha, ((cv2 a).mp hp).1, ((cv2 a).mp hp).2⟩
    have hsel := (selectTargetAdmin_spec db u.department).2.2 hno1' hno2'
    constructor
    · rw [hclosed.1, hfilter, hsel]
      simp
    · rw [hclosed.2, hsel]


/-- Witness for `C5_admin_selection` on `exDB2`: no admin is in Bob's
department, so the HR-substring fallback picks Alice. -/
theorem C5_admin_selection_witness :
    (submitPost Faults.none exDB2 exSubmit).2.1 = HttpRes.ok 201 ∧
    ∃ a, a ∈ exDB2.users ∧ a.roles.contains "admin" = true ∧ submitHrMatch a.department = true ∧
      (∀ b ∈ exDB2.users, b.roles.contains "admin" = true → submitHrMatch b.department = true →
        a.createdAt ≤ b.createdAt) ∧
      ((submitPost Faults.none exDB2 exSubmit).1.notifs.filter
          (fun n => n.relatedLeaveRequest == some exDB2.nextId)).map (fun n => n.recipient) =
        [a.id] := by
  obtain ⟨h1, h2, h3, h4, h5⟩ :=
    C5_admin_selection exDB2 exSubmit 1 exUser1 rfl (by decide) (by decide) rfl (by simp [exDB2])
  refine ⟨h1, h4 ?_ ⟨exApprover, by decide, by decide, by decide⟩⟩
  rintro ⟨a, ha, hr, hdep⟩
  simp [exDB2] at ha
  rcases ha with h | h <;> subst h
  · exact absurd hr (by decide)
  · exact absurd hdep (by decide)


end LeaveNest
